import Mathlib

/-!
Shallow embedding of the redmine-checklist application core
(`models.py`, `storage.py`, `feed_client.py`, `main_window.py`)
and proofs about its reconciliation, persistence and scheduling logic.

Python strings are modelled as `String`, `dict[str, str]` as association
lists `List (String × String)`, `dict[str, Ticket]` (which preserves
insertion order and updates in place) as `List (String × Ticket)` with
Python-dict `find`/`set` semantics, `str | None` as `Option String`, and
machine I/O (HTTP fetches, message boxes, the Qt timer) as explicit
oracles and state fields.
-/

/-! ## String helpers mirroring the Python primitives used by the code -/

/-- Python `str.strip()`: drop leading and trailing whitespace. -/
def pyStrip (s : String) : String :=
  String.mk (((s.toList.dropWhile Char.isWhitespace).reverse.dropWhile
    Char.isWhitespace).reverse)

/-- Python `str.lower()` (characterwise, as `Char.toLower`). -/
def pyLower (s : String) : String := String.mk (s.toList.map Char.toLower)

/-- Splitter for Python `s.split(",")`. -/
def splitCommaAux : List Char → List Char → List (List Char)
  | [], acc => [acc.reverse]
  | c :: cs, acc =>
    if c = ',' then acc.reverse :: splitCommaAux cs [] else splitCommaAux cs (c :: acc)

/-- Python `s.split(",")`: the comma-separated pieces (one empty piece for
the empty string). -/
def pySplitComma (s : String) : List String := (splitCommaAux s.toList []).map String.mk

/-- Test whether `needle` is a prefix of `hay`. -/
def subAt : List Char → List Char → Bool
  | [], _ => true
  | _ :: _, [] => false
  | a :: as, b :: bs => a = b && subAt as bs

/-- Test whether `needle` occurs contiguously in `hay`. -/
def hasSub (hay needle : List Char) : Bool :=
  match hay with
  | [] => needle.isEmpty
  | _ :: rest => subAt needle hay || hasSub rest needle

/-- Python's substring test `needle in hay` on strings: `needle` occurs as a
contiguous substring of `hay`. -/
def strContains (hay needle : String) : Bool :=
  hasSub hay.toList needle.toList

theorem subAt_iff (n h : List Char) : subAt n h = true ↔ n <+: h := by
  induction n generalizing h with
  | nil => simp [subAt]
  | cons a as ih =>
    cases h with
    | nil => simp [subAt]
    | cons b bs => simp [subAt, List.cons_prefix_cons, ih, And.comm]

theorem hasSub_iff (h n : List Char) : hasSub h n = true ↔ n <:+: h := by
  induction h with
  | nil => simp [hasSub, List.isEmpty_iff]
  | cons b bs ih =>
    simp [hasSub, List.infix_cons_iff, subAt_iff, ih]

/-- `strContains` agrees with the mathematical contiguous-substring
relation on the underlying character lists. -/
theorem strContains_iff (hay needle : String) :
    strContains hay needle = true ↔ needle.toList <:+: hay.toList := by
  simp [strContains, hasSub_iff]

/-- Maximal run of leading decimal digits, as used by the regex `#(\d+)`. -/
def digitsAfter : List Char → List Char
  | [] => []
  | c :: cs => if c.isDigit then c :: digitsAfter cs else []

/-- First match of the regex `#(\d+)`: scan for a `#` that is followed by at
least one digit and return the maximal digit run after it
(`re.search(r"#(\d+)", s).group(1)` in `models.extract_ticket_id`). -/
def findHashNum : List Char → Option String
  | [] => none
  | c :: cs =>
    if c = '#' then
      let ds := digitsAfter cs
      if ds = [] then findHashNum cs else some (String.mk ds)
    else findHashNum cs

/-- Remainder of the list after the first occurrence of `": "`, if any
(`title.split(": ", 1)[1]` in `models.extract_subject`). -/
def splitAfterColonSpace : List Char → Option (List Char)
  | [] => none
  | ':' :: ' ' :: rest => some rest
  | _ :: rest => splitAfterColonSpace rest

/-! ## `models.py`: the `Ticket` dataclass and the Atom-entry parsers -/

/-- The `Ticket` dataclass of `models.py`, field for field. -/
structure Ticket where
  ticket_id : String
  subject : String
  status : String
  updated_on : String
  due_date : String := ""
  description : String := ""
  custom_fields : Option (List (String × String)) := none
  url : String := ""
  feed_id : String := ""
  feed_title : String := ""
  feed_search : String := ""
  feed_search_custom : String := ""
  search_hit : Bool := false
  done : Bool := false
  done_at : Option String := none
deriving Repr, DecidableEq

/-- An Atom `entry` element as read by `models.py` and `feed_client.py`:
`findtext(..., default="")` collapses a missing element and `None` text to
`""`, so the text children are plain strings; `categoryTerm` is `some v`
when a `category` element with a `term` attribute (possibly empty) is
present and `none` when the element or the attribute is absent. -/
structure Entry where
  title : String := ""
  updated : String := ""
  id : String := ""
  categoryTerm : Option String := none
  content : String := ""
deriving Repr, DecidableEq

/-- `models.extract_ticket_id`: first `#(\d+)` match in the entry's id, else
in the (already stripped) title, else `entry_id or title_text or "unknown"`. -/
def extract_ticket_id (entry : Entry) (title_text : String) : String :=
  let entry_id := entry.id
  match findHashNum entry_id.toList with
  | some n => n
  | none =>
    match findHashNum title_text.toList with
    | some n => n
    | none =>
      if entry_id ≠ "" then entry_id
      else if title_text ≠ "" then title_text
      else "unknown"

/-- `models.extract_subject`: the part of the title after the first `": "`,
or the whole title when `": "` does not occur. -/
def extract_subject (title_text : String) : String :=
  match splitAfterColonSpace title_text.toList with
  | some rest => String.mk rest
  | none => title_text

/-- `Ticket.from_entry` of `models.py`. The title and the updated timestamp
are `.strip()`ed; the status is the category's `term` attribute when the
category is present with a non-empty term, else `"unknown"`; the url is the
entry's `atom:id`. -/
def Ticket.from_entry (entry : Entry) (feed_id feed_title feed_search : String)
    (search_hit : Bool) : Ticket :=
  let raw_title := pyStrip entry.title
  let updated := pyStrip entry.updated
  let entry_id := entry.id
  let status :=
    match entry.categoryTerm with
    | some term => if term = "" then "unknown" else term
    | none => "unknown"
  { ticket_id := extract_ticket_id entry raw_title
    subject := extract_subject raw_title
    status := status
    updated_on := updated
    url := entry_id
    feed_id := feed_id
    feed_title := feed_title
    feed_search := feed_search
    search_hit := search_hit }

/-! ## `feed_client.py`: keyword splitting, feed parsing, detail fetch -/

/-- `feed_client._split_terms` on a string argument: comma-split, strip each
part, drop empty parts, lowercase the rest. -/
def split_terms (search : String) : List String :=
  if search = "" then []
  else ((((pySplitComma search).map pyStrip).filter (fun w => w ≠ "")).map pyLower)

/-- The per-entry keyword test of `feed_client.fetch_feed`: `search_hit`
stays `False` when there are no terms, else it is `any(term in title_text or
term in content_text for term in terms)` on the lowercased texts. -/
def entryHit (terms : List String) (entry : Entry) : Bool :=
  if terms.isEmpty then false
  else terms.any (fun term =>
    strContains (pyLower entry.title) term || strContains (pyLower entry.content) term)

/-- `feed_client.fetch_feed` after the HTTP fetch and XML parse: the list of
entries is mapped to tickets via `Ticket.from_entry`, with the keyword hit
computed per entry. -/
def fetch_feed (entries : List Entry) (feed_id feed_title feed_search : String) :
    List Ticket :=
  let terms := split_terms feed_search
  entries.map (fun e => Ticket.from_entry e feed_id feed_title feed_search (entryHit terms e))

/-- An issue JSON payload as consumed by the detail fetch: the issue's own
`due_date` (`""` when absent or null), its `custom_fields` as name/value
pairs (a value of `""` models both an empty and a null value, exactly what
`cf.get("value") or ""` produces), and its `description` (`none` models a
JSON null). -/
structure Issue where
  due_date : String := ""
  custom_fields : List (String × String) := []
  description : Option String := none
deriving Repr, DecidableEq

/-- Value of the first custom field named `期日`, else `""`
(the loop of `feed_client.fetch_issue_due_date`). -/
def dueFromCustomFields : List (String × String) → String
  | [] => ""
  | (n, v) :: rest => if n = "期日" then v else dueFromCustomFields rest

/-- `feed_client.fetch_issue_due_date` after the HTTP fetch and JSON parse:
the issue's `due_date` field when non-empty, else the custom field named
`期日`, else `""`. -/
def fetch_issue_due_date (issue : Issue) : String :=
  if issue.due_date ≠ "" then issue.due_date
  else dueFromCustomFields issue.custom_fields

/-- The dictionary returned by the secondary detail fetch, as read by
`MainWindow._update_details` (`details.get("due_date")`,
`details.get("description")`, `details.get("custom_fields")`). -/
structure IssueDetails where
  due_date : String := ""
  description : Option String := none
  custom_fields : Option (List (String × String)) := none
deriving Repr, DecidableEq

/-- Modelled from the spec: `fetch_issue_details` is imported from
`feed_client` by `main_window.py` but is absent from the sources; per the
spec it is the "secondary detail fetch for due-date/custom-field
enrichment" of one issue, so it returns the issue's due date resolved the
way `fetch_issue_due_date` resolves it (the issue's own `due_date` field,
else the custom field named `期日`), together with the description and the
custom fields of the issue's JSON payload. -/
def fetch_issue_details (issue : Issue) : IssueDetails :=
  { due_date := fetch_issue_due_date issue
    description := issue.description
    custom_fields := some issue.custom_fields }

/-! ## The ticket store: `dict[str, Ticket]` -/

/-- The in-memory ticket store `dict[str, Ticket]`: an insertion-ordered
association list. -/
abbrev Store := List (String × Ticket)

/-- Python `d.get(k)` / `k in d`: the first binding of the key. -/
def storeFind : Store → String → Option Ticket
  | [], _ => none
  | (k', t) :: rest, k => if k' = k then some t else storeFind rest k

/-- Python `d[k] = v`: update the first binding of `k` in place, else append
a new binding (dicts preserve insertion order). -/
def storeSet : Store → String → Ticket → Store
  | [], k, t => [(k, t)]
  | (k', t') :: rest, k, t =>
    if k' = k then (k', t) :: rest else (k', t') :: storeSet rest k t

/-- The keys of the store, in insertion order. -/
def storeKeys (m : Store) : List String := m.map Prod.fst

theorem storeFind_storeSet_self (m : Store) (k : String) (t : Ticket) :
    storeFind (storeSet m k t) k = some t := by
  induction m with
  | nil => simp [storeSet, storeFind]
  | cons kv rest ih =>
    obtain ⟨k', t'⟩ := kv
    by_cases h : k' = k <;> simp [storeSet, storeFind, h, ih]

theorem storeFind_storeSet_ne (m : Store) (k k' : String) (t : Ticket)
    (h : k' ≠ k) : storeFind (storeSet m k t) k' = storeFind m k' := by
  have hk : k ≠ k' := fun hh => h hh.symm
  induction m with
  | nil => simp [storeSet, storeFind, hk]
  | cons kv rest ih =>
    obtain ⟨k₀, t₀⟩ := kv
    by_cases h0 : k₀ = k
    · subst h0
      simp [storeSet, storeFind, hk]
    · simp [storeSet, if_neg h0, storeFind, ih]

theorem mem_storeKeys_storeSet (m : Store) (k a : String) (t : Ticket) :
    a ∈ storeKeys (storeSet m k t) ↔ a = k ∨ a ∈ storeKeys m := by
  induction m with
  | nil => simp [storeSet, storeKeys]
  | cons kv rest ih =>
    obtain ⟨k₀, t₀⟩ := kv
    by_cases h0 : k₀ = k
    · subst h0
      simp [storeSet, storeKeys]
    · simp only [storeSet, if_neg h0, storeKeys, List.map_cons, List.mem_cons] at ih ⊢
      tauto

/-! ## `storage.py`: the persisted row-oriented file

A CSV row is modelled as a record of cell values; the `csv` module's
quoting makes the string cells round-trip exactly, and `json.dumps`
followed by `json.loads` is the identity on a `dict[str, str]`, so the
`custom_fields` cell is modelled by the dictionary it serialises. -/

/-- One row of the CSV file written by `storage.save_csv`, one field per
column of its `fieldnames` list. -/
structure Row where
  ticket_id : String
  subject : String
  status : String
  updated_on : String
  due_date : String
  description : String
  custom_fields : List (String × String)
  url : String
  feed_id : String
  feed_title : String
  feed_search : String
  feed_search_custom : String
  search_hit : String
  done : String
  done_at : String
deriving Repr, DecidableEq

/-- Python `str(b)` on a bool. -/
def boolStr (b : Bool) : String := if b then "True" else "False"

/-- The row written for one ticket by `storage.save_csv`:
`custom_fields` is `json.dumps(t.custom_fields or {})`, `search_hit` and
`done` are `str(...)`, `done_at` is `t.done_at or ""`. -/
def rowOfTicket (t : Ticket) : Row :=
  { ticket_id := t.ticket_id
    subject := t.subject
    status := t.status
    updated_on := t.updated_on
    due_date := t.due_date
    description := t.description
    custom_fields := t.custom_fields.getD []
    url := t.url
    feed_id := t.feed_id
    feed_title := t.feed_title
    feed_search := t.feed_search
    feed_search_custom := t.feed_search_custom
    search_hit := boolStr t.search_hit
    done := boolStr t.done
    done_at := t.done_at.getD "" }

/-- `storage.save_csv`: one row per ticket, in store (insertion) order. -/
def save_csv (m : Store) : List Row := m.map (fun kv => rowOfTicket kv.2)

/-- The ticket built from one row by `storage.load_csv`:
`custom_fields` is `self_safe_load(...)` (always a dict, never `None`),
`search_hit` and `done` compare the cell with `"True"`, `done_at` is
`row.get("done_at") or None`. -/
def ticketOfRow (r : Row) : Ticket :=
  { ticket_id := r.ticket_id
    subject := r.subject
    status := r.status
    updated_on := r.updated_on
    due_date := r.due_date
    description := r.description
    custom_fields := some r.custom_fields
    url := r.url
    feed_id := r.feed_id
    feed_title := r.feed_title
    feed_search := r.feed_search
    feed_search_custom := r.feed_search_custom
    search_hit := r.search_hit = "True"
    done := r.done = "True"
    done_at := if r.done_at = "" then none else some r.done_at }

/-- `storage.load_csv`: insert each row's ticket under the row's
`ticket_id`, in file order. -/
def load_csv (rows : List Row) : Store :=
  rows.foldl (fun m r => storeSet m r.ticket_id (ticketOfRow r)) []

/-! ## `MainWindow.merge_tickets` -/

/-- Result of `MainWindow.merge_tickets`: the updated store, the new and
updated counts, and the set of ticket ids needing a detail fetch
(`detail_targets`, a Python set, modelled as a duplicate-free list). -/
structure MergeRes where
  store : Store
  new_cnt : Nat
  updated_cnt : Nat
  targets : List String
deriving Repr, DecidableEq

/-- Python `set.add`. -/
def addTarget (l : List String) (x : String) : List String :=
  if x ∈ l then l else l ++ [x]

/-- The record `MainWindow.merge_tickets` stores for a fetched ticket `t`
whose id is already present: the user-owned fields (`done`, `done_at`) and
the locally fetched detail fields (`due_date`, `description`,
`custom_fields`) are kept from the previous record; `subject`, `status`,
`updated_on` and `search_hit` come from `t`; `url`, `feed_id`,
`feed_title`, `feed_search` fall back to the previous value when the
fetched one is empty (`t.url or prev.url`, ...); `feed_search_custom`
comes from the merge argument, falling back likewise. -/
def mergedTicket (feed_search_custom : String) (prev t : Ticket) : Ticket :=
  { ticket_id := t.ticket_id
    subject := t.subject
    status := t.status
    updated_on := t.updated_on
    url := if t.url = "" then prev.url else t.url
    feed_id := if t.feed_id = "" then prev.feed_id else t.feed_id
    feed_title := if t.feed_title = "" then prev.feed_title else t.feed_title
    feed_search := if t.feed_search = "" then prev.feed_search else t.feed_search
    feed_search_custom :=
      if feed_search_custom = "" then prev.feed_search_custom else feed_search_custom
    search_hit := t.search_hit
    due_date := prev.due_date
    description := prev.description
    custom_fields := prev.custom_fields
    done := prev.done
    done_at := prev.done_at }

/-- The loop body of `MainWindow.merge_tickets` for one fetched ticket `t`:
when `t.ticket_id` is already stored, replace the record with
`mergedTicket`, counting it as updated (and marking it for detail fetch)
exactly when `updated_on` changed; when the id is new, store `t` with its
`feed_search_custom` set, count it new and mark it. -/
def mergeStep (feed_search_custom : String) (r : MergeRes) (t : Ticket) : MergeRes :=
  match storeFind r.store t.ticket_id with
  | some prev =>
    let st := storeSet r.store t.ticket_id (mergedTicket feed_search_custom prev t)
    if t.updated_on ≠ prev.updated_on then
      { store := st, new_cnt := r.new_cnt, updated_cnt := r.updated_cnt + 1,
        targets := addTarget r.targets t.ticket_id }
    else
      { r with store := st }
  | none =>
    { store := storeSet r.store t.ticket_id { t with feed_search_custom := feed_search_custom },
      new_cnt := r.new_cnt + 1, updated_cnt := r.updated_cnt,
      targets := addTarget r.targets t.ticket_id }

/-- `MainWindow.merge_tickets`: fold the loop body over the fetched list. -/
def merge_tickets (st : Store) (fetched : List Ticket) (feed_search_custom : String) :
    MergeRes :=
  fetched.foldl (mergeStep feed_search_custom)
    { store := st, new_cnt := 0, updated_cnt := 0, targets := [] }

/-! ## `MainWindow._update_details` -/

/-- Python truthiness of `t.custom_fields` (`None` and `{}` are falsy). -/
def cfTruthy : Option (List (String × String)) → Bool
  | none => false
  | some l => !l.isEmpty

/-- Python `(t.custom_fields or {}).get(name, "")`. -/
def cfGet (cf : Option (List (String × String))) (name : String) : String :=
  match cf with
  | none => ""
  | some l =>
    match l.find? (fun p => p.1 = name) with
    | some p => p.2
    | none => ""

/-- Application of one fetched detail payload to a ticket, exactly the body
of the `try` block of `MainWindow._update_details` after the fetch:
`due_date` is overwritten only when the payload's due date is truthy,
`description` and `custom_fields` only when the payload's values are not
`None`; then `search_hit` is or-ed with a keyword re-check against the
description and, failing that, against the custom fields named by
`feed_search_custom`. -/
def applyDetails (t : Ticket) (d : IssueDetails) : Ticket :=
  let t1 := if d.due_date ≠ "" then { t with due_date := d.due_date } else t
  let t2 :=
    match d.description with
    | some ds => { t1 with description := ds }
    | none => t1
  let t3 :=
    match d.custom_fields with
    | some cf => { t2 with custom_fields := some cf }
    | none => t2
  let terms := split_terms t3.feed_search
  let custom_targets := split_terms t3.feed_search_custom
  if terms ≠ [] ∧ (t3.description ≠ "" ∨ cfTruthy t3.custom_fields) then
    let desc := pyLower t3.description
    let hit0 := terms.any (fun term => strContains desc term)
    let hit :=
      if hit0 then true
      else if custom_targets ≠ [] ∧ cfTruthy t3.custom_fields then
        custom_targets.any (fun name =>
          terms.any (fun term => strContains (pyLower (cfGet t3.custom_fields name)) term))
      else false
    { t3 with search_hit := t3.search_hit || hit }
  else t3

/-- The loop body of `MainWindow._update_details` for one target id: skip
absent tickets and tickets without a url; a fetch oracle answer of `none`
models `fetch_issue_details` raising (the `except` clause leaves the ticket
untouched and continues). -/
def updateOne (fetchIssue : String → Option Issue) (st : Store) (tid : String) : Store :=
  match storeFind st tid with
  | none => st
  | some t =>
    if t.url = "" then st
    else
      match fetchIssue t.url with
      | none => st
      | some issue => storeSet st tid (applyDetails t (fetch_issue_details issue))

/-- `MainWindow._update_details`: fold the loop body over the target ids. -/
def updateDetails (fetchIssue : String → Option Issue) (st : Store)
    (ticket_ids : List String) : Store :=
  ticket_ids.foldl (updateOne fetchIssue) st

/-! ## `MainWindow` scheduling state and the fetch-merge-persist cycle -/

/-- A raised exception during a feed fetch: `urllib.error.HTTPError` or any
other `Exception`. -/
inductive Exc where
  | http (code : Int) (reason : String)
  | other (msg : String)
deriving Repr, DecidableEq

/-- One normalised feed configuration entry as consumed by
`MainWindow._sync_feeds` (`feed.get("id", "")`, `feed.get("title", "feed")`,
`feed.get("url") or feed.get("feed_url")` with `""` for a missing url,
`feed.get("search", "")`, `feed.get("search_custom", "")`). -/
structure Feed where
  id : String := ""
  title : String := "feed"
  url : String := ""
  search : String := ""
  search_custom : String := ""
deriving Repr, DecidableEq

/-- The slice of `MainWindow` state that the reconciliation and scheduling
logic reads and writes: the sync flag, the single `sync_timer` (`some d`
when started with interval `d` milliseconds, `none` when stopped), the
displayed next sync time, the status label, the in-memory ticket store and
the contents of the persisted file (as the store whose rows it holds). -/
structure AppState where
  sync_running : Bool := false
  sync_timer : Option Int := none
  next_sync_at : Option Int := none
  status_label : String := "停止中"
  tickets : Store := []
  saved : Store := []
deriving Repr, DecidableEq

/-- `MainWindow.schedule_sync`: stop the (single) timer, restart it with the
given delay and set `next_sync_at` to now plus the delay. -/
def schedule_sync (s : AppState) (delay_ms now : Int) : AppState :=
  { s with sync_timer := some delay_ms, next_sync_at := some (now + delay_ms) }

/-- `MainWindow.start_sync`: when the api key and feed configuration checks
pass, mark the sync running and schedule an immediate cycle; otherwise show
a warning and change nothing. -/
def start_sync (s : AppState) (configOk : Bool) (now : Int) : AppState :=
  if configOk then
    schedule_sync { s with sync_running := true, status_label := "同期中" } 0 now
  else s

/-- `MainWindow.stop_sync`: clear the sync flag and stop the timer. -/
def stop_sync (s : AppState) : AppState :=
  { s with sync_running := false, status_label := "停止中", sync_timer := none }

/-- `MainWindow.toggle_sync`. -/
def toggle_sync (s : AppState) (configOk : Bool) (now : Int) : AppState :=
  if s.sync_running then stop_sync s else start_sync s configOk now

/-- Intermediate result of `MainWindow._sync_feeds`: the (possibly
partially merged) store, the fetched/new/updated totals, the union of the
per-feed detail targets, and the first exception if one was raised. -/
structure SyncRes where
  store : Store
  fetched : Nat
  new_cnt : Nat
  updated_cnt : Nat
  targets : List String
  err : Option Exc
deriving Repr, DecidableEq

/-- The feed loop of `MainWindow._sync_feeds`: feeds without a url are
skipped; a fetch failure aborts the loop, leaving the merges already done
in place; otherwise each fetched list is merged and the counters and
detail-target set accumulate. -/
def syncFeedsGo (fetchFeed : Feed → Except Exc (List Ticket)) :
    Store → Nat → Nat → Nat → List String → List Feed → SyncRes
  | st, tf, nw, up, tg, [] =>
    { store := st, fetched := tf, new_cnt := nw, updated_cnt := up, targets := tg, err := none }
  | st, tf, nw, up, tg, f :: rest =>
    if f.url = "" then syncFeedsGo fetchFeed st tf nw up tg rest
    else
      match fetchFeed f with
      | Except.error e =>
        { store := st, fetched := tf, new_cnt := nw, updated_cnt := up, targets := tg,
          err := some e }
      | Except.ok fetched =>
        let r := merge_tickets st fetched f.search_custom
        syncFeedsGo fetchFeed r.store (tf + fetched.length) (nw + r.new_cnt)
          (up + r.updated_cnt) (r.targets.foldl addTarget tg) rest

/-- The `try/except` arms of `MainWindow.sync_now` once `_sync_feeds` has
returned or raised (its result/exception packed in `r`): on success run the
detail fetch when enabled, persist the store with `save_csv` and report
completion; an `HTTPError` sets the status to `HTTPエラー` and any other
exception to `同期失敗`, each showing an error dialog and not persisting. -/
def syncOutcome (s : AppState) (enable_api_details : Bool)
    (fetchIssue : String → Option Issue) (r : SyncRes) : AppState × Option String :=
  match r.err with
  | none =>
    let st2 :=
      if enable_api_details && !r.targets.isEmpty then
        updateDetails fetchIssue r.store r.targets
      else r.store
    let stat := "同期完了: " ++ toString r.fetched ++ "件"
    ({ s with tickets := st2, saved := st2, status_label := stat }, none)
  | some (Exc.http code reason) =>
    ({ s with tickets := r.store, status_label := "HTTPエラー" },
     some ("HTTP " ++ toString code ++ ": " ++ reason))
  | some (Exc.other msg) =>
    ({ s with tickets := r.store, status_label := "同期失敗" }, some msg)

/-- `MainWindow.sync_now`, returning the new state and the message box
shown (if any).  With an empty feed list it warns and returns before the
`try/finally`, so nothing is scheduled.  Otherwise the feeds are fetched,
merged and handled by `syncOutcome`, and the `finally` clause reschedules
the timer with delay `max(refresh_minutes, 1)` minutes exactly when
`sync_running` is true. -/
def sync_now (s : AppState) (feeds : List Feed) (refresh_minutes now : Int)
    (enable_api_details : Bool) (fetchFeed : Feed → Except Exc (List Ticket))
    (fetchIssue : String → Option Issue) : AppState × Option String :=
  if feeds = [] then
    ({ s with status_label := "同期失敗" }, some "URL未設定")
  else
    let s1dlg := syncOutcome s enable_api_details fetchIssue
      (syncFeedsGo fetchFeed s.tickets 0 0 0 [] feeds)
    if s1dlg.1.sync_running then
      (schedule_sync s1dlg.1 (max refresh_minutes 1 * 60 * 1000) now, s1dlg.2)
    else s1dlg

/-- `MainWindow.toggle_done_one`: on a stored ticket flip `done`, stamp or
clear `done_at`, and persist; on an absent id do nothing. -/
def toggle_done_one (s : AppState) (ticket_id now : String) : AppState :=
  match storeFind s.tickets ticket_id with
  | none => s
  | some t =>
    let t' : Ticket :=
      { t with done := !t.done, done_at := if !t.done then some now else none }
    let tk := storeSet s.tickets ticket_id t'
    { s with tickets := tk, saved := tk }

/-! ## The scheduler transition system (claim C8)

The events a user or the Qt event loop can trigger on the running window:
the start/stop/toggle buttons, a manual `sync_now`, and an expiry of the
(repeating) sync timer, which is only possible while the timer is started. -/

/-- One scheduler transition. -/
inductive SchedStep : AppState → AppState → Prop where
  | start (s : AppState) (configOk : Bool) (now : Int) :
      SchedStep s (start_sync s configOk now)
  | stop (s : AppState) : SchedStep s (stop_sync s)
  | toggle (s : AppState) (configOk : Bool) (now : Int) :
      SchedStep s (toggle_sync s configOk now)
  | manualSync (s : AppState) (feeds : List Feed) (rm now : Int) (enD : Bool)
      (ff : Feed → Except Exc (List Ticket)) (fi : String → Option Issue) :
      SchedStep s (sync_now s feeds rm now enD ff fi).1
  | timerFire (s : AppState) (feeds : List Feed) (rm now : Int) (enD : Bool)
      (ff : Feed → Except Exc (List Ticket)) (fi : String → Option Issue) :
      s.sync_timer ≠ none →
      SchedStep s (sync_now s feeds rm now enD ff fi).1
  | toggleDone (s : AppState) (tid now : String) :
      SchedStep s (toggle_done_one s tid now)

/-- Scheduler transitions that do not invoke `start_sync` (neither the
start button nor the toggle button, which calls `start_sync` from a stopped
window). -/
inductive NonStartStep : AppState → AppState → Prop where
  | stop (s : AppState) : NonStartStep s (stop_sync s)
  | manualSync (s : AppState) (feeds : List Feed) (rm now : Int) (enD : Bool)
      (ff : Feed → Except Exc (List Ticket)) (fi : String → Option Issue) :
      NonStartStep s (sync_now s feeds rm now enD ff fi).1
  | timerFire (s : AppState) (feeds : List Feed) (rm now : Int) (enD : Bool)
      (ff : Feed → Except Exc (List Ticket)) (fi : String → Option Issue) :
      s.sync_timer ≠ none →
      NonStartStep s (sync_now s feeds rm now enD ff fi).1
  | toggleDone (s : AppState) (tid now : String) :
      NonStartStep s (toggle_done_one s tid now)

/-- States reachable from `init` by scheduler transitions. -/
abbrev SchedReachable (init s : AppState) : Prop := Relation.ReflTransGen SchedStep init s

/-- States reachable without ever invoking `start_sync`. -/
abbrev NonStartReachable (init s : AppState) : Prop := Relation.ReflTransGen NonStartStep init s

/-! ## Proofs about `merge_tickets` (claims C1 and C9) -/

theorem mergeStep_store_of_found (fsc : String) (r : MergeRes) (t prev : Ticket)
    (hprev : storeFind r.store t.ticket_id = some prev) :
    (mergeStep fsc r t).store = storeSet r.store t.ticket_id (mergedTicket fsc prev t) := by
  unfold mergeStep
  rw [hprev]
  by_cases h : t.updated_on ≠ prev.updated_on <;> simp [h]

/-- C1: for every ticket store and every fetched ticket whose `ticket_id` is
already a key of the store, the merge step of `merge_tickets` replaces the
stored record with one whose `done`, `done_at`, `due_date`, `description`
and `custom_fields` equal the previously stored values, whose `subject`,
`status`, `updated_on` and `search_hit` are taken from the freshly fetched
entry, and whose `url`, `feed_id`, `feed_title` and `feed_search` are taken
from the fetched entry, falling back to the stored value exactly when the
fetched value is empty. -/
theorem merge_preserves_user_fields (fsc : String) (r : MergeRes) (t prev : Ticket)
    (hprev : storeFind r.store t.ticket_id = some prev) :
    ∃ m', storeFind (mergeStep fsc r t).store t.ticket_id = some m' ∧
      m'.done = prev.done ∧ m'.done_at = prev.done_at ∧ m'.due_date = prev.due_date ∧
      m'.description = prev.description ∧ m'.custom_fields = prev.custom_fields ∧
      m'.subject = t.subject ∧ m'.status = t.status ∧ m'.updated_on = t.updated_on ∧
      m'.search_hit = t.search_hit ∧
      m'.url = (if t.url = "" then prev.url else t.url) ∧
      m'.feed_id = (if t.feed_id = "" then prev.feed_id else t.feed_id) ∧
      m'.feed_title = (if t.feed_title = "" then prev.feed_title else t.feed_title) ∧
      m'.feed_search = (if t.feed_search = "" then prev.feed_search else t.feed_search) := by
  refine ⟨mergedTicket fsc prev t, ?_, rfl, rfl, rfl, rfl, rfl, rfl, rfl, rfl, rfl, rfl,
    rfl, rfl, rfl⟩
  rw [mergeStep_store_of_found fsc r t prev hprev]
  exact storeFind_storeSet_self _ _ _

def prevW : Ticket :=
  { ticket_id := "1", subject := "old subj", status := "Closed", updated_on := "u0",
    due_date := "2024-01-01", description := "old desc",
    custom_fields := some [("a", "b")], url := "http://r/1", feed_id := "f0",
    feed_title := "Feed0", feed_search := "foo", feed_search_custom := "bar",
    search_hit := false, done := true, done_at := some "2024-02-02T00:00:00" }

def fetchedW : Ticket :=
  { ticket_id := "1", subject := "new subj", status := "Open", updated_on := "u1",
    url := "", feed_id := "f1", feed_title := "", feed_search := "baz",
    search_hit := true }

def mergeResW : MergeRes :=
  { store := [("1", prevW)], new_cnt := 0, updated_cnt := 0, targets := [] }

theorem merge_preserves_user_fields_witness :
    storeFind mergeResW.store fetchedW.ticket_id = some prevW ∧
    (∃ m', storeFind (mergeStep "custom" mergeResW fetchedW).store fetchedW.ticket_id = some m' ∧
      m'.done = prevW.done ∧ m'.done_at = prevW.done_at ∧ m'.due_date = prevW.due_date ∧
      m'.description = prevW.description ∧ m'.custom_fields = prevW.custom_fields ∧
      m'.subject = fetchedW.subject ∧ m'.status = fetchedW.status ∧
      m'.updated_on = fetchedW.updated_on ∧ m'.search_hit = fetchedW.search_hit ∧
      m'.url = (if fetchedW.url = "" then prevW.url else fetchedW.url) ∧
      m'.feed_id = (if fetchedW.feed_id = "" then prevW.feed_id else fetchedW.feed_id) ∧
      m'.feed_title = (if fetchedW.feed_title = "" then prevW.feed_title else fetchedW.feed_title) ∧
      m'.feed_search = (if fetchedW.feed_search = "" then prevW.feed_search else fetchedW.feed_search)) :=
  ⟨by decide, merge_preserves_user_fields "custom" mergeResW fetchedW prevW (by decide)⟩

theorem mergeStep_keys_mono (fsc : String) (r : MergeRes) (t : Ticket) (k : String)
    (h : k ∈ storeKeys r.store) : k ∈ storeKeys (mergeStep fsc r t).store := by
  unfold mergeStep
  split
  · split <;> exact (mem_storeKeys_storeSet _ _ _ _).mpr (Or.inr h)
  · exact (mem_storeKeys_storeSet _ _ _ _).mpr (Or.inr h)

theorem mergeStep_key_self (fsc : String) (r : MergeRes) (t : Ticket) :
    t.ticket_id ∈ storeKeys (mergeStep fsc r t).store := by
  unfold mergeStep
  split
  · split <;> exact (mem_storeKeys_storeSet _ _ _ _).mpr (Or.inl rfl)
  · exact (mem_storeKeys_storeSet _ _ _ _).mpr (Or.inl rfl)

theorem foldl_mergeStep_keys_mono (fsc : String) (l : List Ticket) (r : MergeRes)
    (k : String) (h : k ∈ storeKeys r.store) :
    k ∈ storeKeys (l.foldl (mergeStep fsc) r).store := by
  induction l generalizing r with
  | nil => exact h
  | cons a as ih => exact ih (mergeStep fsc r a) (mergeStep_keys_mono fsc r a k h)

theorem foldl_mergeStep_mem (fsc : String) (l : List Ticket) (r : MergeRes)
    (t : Ticket) (ht : t ∈ l) :
    t.ticket_id ∈ storeKeys (l.foldl (mergeStep fsc) r).store := by
  induction l generalizing r with
  | nil => cases ht
  | cons a as ih =>
    rcases List.mem_cons.mp ht with h | h
    · subst h
      exact foldl_mergeStep_keys_mono fsc as (mergeStep fsc r t) t.ticket_id
        (mergeStep_key_self fsc r t)
    · exact ih (mergeStep fsc r a) h

/-- C9: no sync ever removes a ticket from the store: after `merge_tickets`
runs, every ticket id that was a key of the store beforehand is still a
key, and every fetched ticket's id is a key. -/
theorem merge_tickets_never_removes (st : Store) (fetched : List Ticket) (fsc : String) :
    (∀ k, k ∈ storeKeys st → k ∈ storeKeys (merge_tickets st fetched fsc).store) ∧
    (∀ t, t ∈ fetched → t.ticket_id ∈ storeKeys (merge_tickets st fetched fsc).store) := by
  constructor
  · intro k hk
    exact foldl_mergeStep_keys_mono fsc fetched _ k hk
  · intro t ht
    exact foldl_mergeStep_mem fsc fetched _ t ht

theorem merge_tickets_never_removes_witness :
    "1" ∈ storeKeys mergeResW.store ∧ fetchedW ∈ [fetchedW] ∧
    "1" ∈ storeKeys (merge_tickets mergeResW.store [fetchedW] "c").store ∧
    fetchedW.ticket_id ∈ storeKeys (merge_tickets mergeResW.store [fetchedW] "c").store :=
  ⟨by decide, by simp,
    (merge_tickets_never_removes mergeResW.store [fetchedW] "c").1 "1" (by decide),
    (merge_tickets_never_removes mergeResW.store [fetchedW] "c").2 fetchedW (by simp)⟩

/-! ## Proofs about `save_csv`/`load_csv` (claim C2)

The round trip is not the identity on every store: a ticket with
`custom_fields = None` is written as the JSON `{}` and read back as an
empty dict, and a ticket with `done_at = ""` is written as the empty cell
and read back as `None`.  On stores whose tickets avoid those two
degenerate values (and whose keys are the tickets' ids, without
duplicates) the round trip is the identity. -/

/-- A ticket whose `custom_fields` is `None` (the dataclass default, and
what `Ticket.from_entry` produces). -/
def cfNoneTicketW : Ticket :=
  { ticket_id := "1", subject := "s", status := "New", updated_on := "u",
    custom_fields := none, done := true, done_at := some "2024-01-01T00:00:00" }

/-- Counterexample to C2 as stated: saving and re-loading the singleton
store holding a ticket with `custom_fields = None` does not return the same
store (the reloaded ticket has `custom_fields = {}`). -/
theorem save_load_not_identity :
    load_csv (save_csv [("1", cfNoneTicketW)]) ≠ [("1", cfNoneTicketW)] := by decide

theorem ticketOfRow_rowOfTicket (t : Ticket) (hcf : t.custom_fields ≠ none)
    (hda : t.done_at ≠ some "") : ticketOfRow (rowOfTicket t) = t := by
  obtain ⟨tid, subj, stat, upd, dd, desc, cf, url, fid, ftl, fs, fsc, sh, dn, da⟩ := t
  cases cf with
  | none => exact absurd rfl hcf
  | some cfl =>
    cases da with
    | none => cases sh <;> cases dn <;> simp [ticketOfRow, rowOfTicket, boolStr]
    | some s =>
      have hs : ¬s = "" := by simpa using hda
      cases sh <;> cases dn <;> simp [ticketOfRow, rowOfTicket, boolStr, hs]

theorem load_csv_go_cons (rows : List Row) (k : String) (t : Ticket) (m : Store)
    (hk : ∀ r ∈ rows, r.ticket_id ≠ k) :
    rows.foldl (fun m r => storeSet m r.ticket_id (ticketOfRow r)) ((k, t) :: m) =
      (k, t) :: rows.foldl (fun m r => storeSet m r.ticket_id (ticketOfRow r)) m := by
  induction rows generalizing m with
  | nil => rfl
  | cons r rs ih =>
    have hne : k ≠ r.ticket_id := fun hh => (hk r (by simp)) hh.symm
    simp only [List.foldl_cons, storeSet, if_neg hne]
    exact ih _ (fun r' hr' => hk r' (by simp [hr']))

/-- C2 amended: loading right after saving is the identity on every
well-formed ticket store (keys are the tickets' ids and are duplicate-free)
whose tickets have a non-`None` `custom_fields` dict and no empty-string
`done_at`; in particular every such ticket's `done` flag and `done_at`
timestamp survive the save/load cycle. -/
theorem save_load_roundtrip (m : Store)
    (hkey : ∀ kv ∈ m, kv.1 = kv.2.ticket_id)
    (hnodup : (storeKeys m).Nodup)
    (hcf : ∀ kv ∈ m, kv.2.custom_fields ≠ none)
    (hda : ∀ kv ∈ m, kv.2.done_at ≠ some "") :
    load_csv (save_csv m) = m := by
  induction m with
  | nil => rfl
  | cons kv rest ih =>
    obtain ⟨k, t⟩ := kv
    have hk : k = t.ticket_id := hkey (k, t) (by simp)
    have hrt : ticketOfRow (rowOfTicket t) = t :=
      ticketOfRow_rowOfTicket t (hcf (k, t) (by simp)) (hda (k, t) (by simp))
    have hknotin : k ∉ storeKeys rest := by
      have := hnodup
      simp only [storeKeys, List.map_cons, List.nodup_cons] at this
      exact this.1
    have hrows : ∀ r ∈ save_csv rest, r.ticket_id ≠ k := by
      intro r hr
      simp only [save_csv, List.mem_map] at hr
      obtain ⟨kv', hkv', hr'⟩ := hr
      have hrtid : r.ticket_id = kv'.1 := by
        rw [← hr']
        exact (hkey kv' (List.mem_cons_of_mem _ hkv')).symm
      rw [hrtid]
      intro hkk
      exact hknotin (by simpa [storeKeys, hkk] using List.mem_map_of_mem Prod.fst hkv')
    have hnodup' : (storeKeys rest).Nodup := by
      have := hnodup
      simp only [storeKeys, List.map_cons, List.nodup_cons] at this
      exact this.2
    calc load_csv (save_csv ((k, t) :: rest))
        = (save_csv rest).foldl (fun m r => storeSet m r.ticket_id (ticketOfRow r))
            [((rowOfTicket t).ticket_id, ticketOfRow (rowOfTicket t))] := rfl
      _ = (save_csv rest).foldl (fun m r => storeSet m r.ticket_id (ticketOfRow r))
            ((k, t) :: []) := by rw [hrt]; rw [show (rowOfTicket t).ticket_id = t.ticket_id from rfl, ← hk]
      _ = (k, t) :: (save_csv rest).foldl (fun m r => storeSet m r.ticket_id (ticketOfRow r)) [] :=
            load_csv_go_cons (save_csv rest) k t [] hrows
      _ = (k, t) :: load_csv (save_csv rest) := rfl
      _ = (k, t) :: rest := by
            rw [ih (fun kv' h' => hkey kv' (by simp [h'])) hnodup'
              (fun kv' h' => hcf kv' (by simp [h'])) (fun kv' h' => hda kv' (by simp [h']))]

def okTicketW : Ticket :=
  { ticket_id := "7", subject := "subj", status := "New", updated_on := "u7",
    due_date := "2024-03-03", description := "desc",
    custom_fields := some [("期日", "2024-03-03")], url := "http://r/7",
    feed_id := "fA", feed_title := "Feed A", feed_search := "foo",
    feed_search_custom := "期日", search_hit := true, done := true,
    done_at := some "2024-02-02T10:00:00" }

theorem save_load_roundtrip_witness :
    (∀ kv ∈ [(("7" : String), okTicketW)], kv.1 = kv.2.ticket_id) ∧
    (storeKeys [(("7" : String), okTicketW)]).Nodup ∧
    (∀ kv ∈ [(("7" : String), okTicketW)], kv.2.custom_fields ≠ none) ∧
    (∀ kv ∈ [(("7" : String), okTicketW)], kv.2.done_at ≠ some "") ∧
    load_csv (save_csv [(("7" : String), okTicketW)]) = [(("7" : String), okTicketW)] :=
  ⟨by decide, by decide, by decide, by decide,
    save_load_roundtrip [("7", okTicketW)] (by decide) (by decide) (by decide) (by decide)⟩

/-! ## Proofs about the keyword matching of `fetch_feed` (claim C4) -/

/-- Claim-side reading of C4: some comma-separated term of the search
specification, whitespace-trimmed and non-blank, occurs (case-insensitively,
i.e. after lowercasing both sides) as a substring of the entry's title or of
the entry's content. -/
def specSearchHit (search title content : String) : Prop :=
  ∃ p ∈ pySplitComma search, pyStrip p ≠ "" ∧
    (strContains (pyLower title) (pyLower (pyStrip p)) = true ∨
     strContains (pyLower content) (pyLower (pyStrip p)) = true)

theorem entryHit_any (terms : List String) (e : Entry) :
    entryHit terms e = terms.any (fun term =>
      strContains (pyLower e.title) term || strContains (pyLower e.content) term) := by
  cases terms <;> simp [entryHit]

theorem entryHit_iff (search : String) (e : Entry) :
    entryHit (split_terms search) e = true ↔
      (search ≠ "" ∧ specSearchHit search e.title e.content) := by
  by_cases hs : search = ""
  · simp [hs, split_terms, entryHit]
  · have hterms : split_terms search =
        (((pySplitComma search).map pyStrip).filter (fun w => w ≠ "")).map pyLower := by
      rw [split_terms, if_neg hs]
    rw [entryHit_any, hterms]
    constructor
    · intro h
      obtain ⟨term, hterm, hmatch⟩ := List.any_eq_true.mp h
      obtain ⟨w, hw, rfl⟩ := List.mem_map.mp hterm
      obtain ⟨hw1, hw2⟩ := List.mem_filter.mp hw
      obtain ⟨p, hp, rfl⟩ := List.mem_map.mp hw1
      exact ⟨hs, p, hp, by simpa using hw2, by simpa using hmatch⟩
    · rintro ⟨-, p, hp, hne, hmatch⟩
      apply List.any_eq_true.mpr
      refine ⟨pyLower (pyStrip p), List.mem_map_of_mem _
        (List.mem_filter.mpr ⟨List.mem_map_of_mem _ hp, by simpa using hne⟩), ?_⟩
      simpa using hmatch

/-- C4: for every Atom feed entry, the ticket produced by `fetch_feed` has
`search_hit = true` if and only if the feed's search specification is
non-empty and at least one of its comma-separated terms
(whitespace-trimmed, compared case-insensitively) occurs as a substring of
the entry's title or of the entry's content; with an empty or all-blank
specification `search_hit` is `false`. -/
theorem zip_map_self {α β : Type} (f : α → β) (l : List α) :
    (l.map f).zip l = l.map (fun a => (f a, a)) := by
  induction l with
  | nil => rfl
  | cons a as ih => simp [ih]

theorem fetch_feed_search_hit (entries : List Entry) (fid ftl search : String)
    (tp : Ticket × Entry) (htp : tp ∈ (fetch_feed entries fid ftl search).zip entries) :
    tp.1.search_hit = true ↔ (search ≠ "" ∧ specSearchHit search tp.2.title tp.2.content) := by
  have hzip : (fetch_feed entries fid ftl search).zip entries =
      entries.map (fun e =>
        (Ticket.from_entry e fid ftl search (entryHit (split_terms search) e), e)) := by
    rw [fetch_feed]
    exact zip_map_self _ entries
  rw [hzip] at htp
  obtain ⟨e, _, rfl⟩ := List.mem_map.mp htp
  have hsh : (Ticket.from_entry e fid ftl search (entryHit (split_terms search) e)).search_hit
      = entryHit (split_terms search) e := rfl
  simpa [hsh] using entryHit_iff search e

def entryW : Entry :=
  { title := "Proj - Bug #12: Printer Broken", id := "https://r/issues/12",
    categoryTerm := some "Open", content := "the PRINTER is on fire" }

def pairW : Ticket × Entry :=
  (Ticket.from_entry entryW "f" "ft" "printer, missing" true, entryW)

theorem fetch_feed_search_hit_witness :
    (pairW ∈ (fetch_feed [entryW] "f" "ft" "printer, missing").zip [entryW]) ∧
    (pairW.1.search_hit = true ↔
      (("printer, missing" ≠ "") ∧
        specSearchHit "printer, missing" pairW.2.title pairW.2.content)) :=
  ⟨by decide,
    fetch_feed_search_hit [entryW] "f" "ft" "printer, missing" pairW (by decide)⟩

/-! ## Proofs about `Ticket.from_entry` (claim C7)

The claim as stated ignores that `from_entry` strips the title before using
it, and that a category with an empty `term` attribute also yields the
status `"unknown"`; both are refuted by `from_entry_claim_counterexample`
and repaired in `from_entry_fields`. -/

def entryC7 : Entry := { title := " mytask ", id := "", categoryTerm := some "" }

/-- Counterexample to C7 as stated, at the entry with title `" mytask "`,
empty atom:id and a category whose `term` attribute is the empty string:
the code strips the title (ticket_id and subject become `"mytask"`, not the
claimed `" mytask "`) and maps the present-but-empty category term to
`"unknown"`, not to the term `""` itself. -/
theorem from_entry_claim_counterexample :
    ((Ticket.from_entry entryC7 "f" "ft" "" false).ticket_id = "mytask" ∧
     (Ticket.from_entry entryC7 "f" "ft" "" false).subject = "mytask" ∧
     (Ticket.from_entry entryC7 "f" "ft" "" false).status = "unknown") ∧
    ¬ ((Ticket.from_entry entryC7 "f" "ft" "" false).ticket_id = " mytask " ∨
       (Ticket.from_entry entryC7 "f" "ft" "" false).subject = " mytask " ∨
       (Ticket.from_entry entryC7 "f" "ft" "" false).status = "") := by decide

/-- C7 amended: for every Atom entry, writing `title'` for the
whitespace-stripped entry title, the parsed ticket has `ticket_id` equal to
the digits of the first `#<digits>` match in the entry's atom:id, else the
first such match in `title'`, else the entry id, else `title'`, else
`"unknown"`; `subject` equal to the part of `title'` after the first `": "`
(all of `title'` when no `": "` occurs); `status` equal to the entry's
category term when a category with a non-empty term is present, else
`"unknown"`; and `url` equal to the entry's atom:id. -/
theorem from_entry_fields (e : Entry) (fid ftl fs : String) (hit : Bool) :
    (Ticket.from_entry e fid ftl fs hit).ticket_id =
      (match findHashNum e.id.toList with
       | some n => n
       | none =>
         match findHashNum (pyStrip e.title).toList with
         | some n => n
         | none =>
           if e.id ≠ "" then e.id
           else if pyStrip e.title ≠ "" then pyStrip e.title
           else "unknown") ∧
    (Ticket.from_entry e fid ftl fs hit).subject =
      (match splitAfterColonSpace (pyStrip e.title).toList with
       | some rest => String.mk rest
       | none => pyStrip e.title) ∧
    (Ticket.from_entry e fid ftl fs hit).status =
      (match e.categoryTerm with
       | some term => if term = "" then "unknown" else term
       | none => "unknown") ∧
    (Ticket.from_entry e fid ftl fs hit).url = e.id :=
  ⟨rfl, rfl, rfl, rfl⟩

/-! ## Proofs about `_update_details` (claim C3) -/

/-- The effect of one `_update_details` loop iteration on the targeted
ticket itself: unchanged without a url or when the fetch raises, else
enriched with the fetched payload. -/
def enrichOne (fetchIssue : String → Option Issue) (t : Ticket) : Ticket :=
  if t.url = "" then t
  else
    match fetchIssue t.url with
    | none => t
    | some issue => applyDetails t (fetch_issue_details issue)

theorem updateOne_find_self (fi : String → Option Issue) (st : Store) (tid : String)
    (t : Ticket) (ht : storeFind st tid = some t) :
    storeFind (updateOne fi st tid) tid = some (enrichOne fi t) := by
  unfold updateOne enrichOne
  rw [ht]
  dsimp only
  by_cases hu : t.url = ""
  · simp [hu, ht]
  · rw [if_neg hu, if_neg hu]
    cases hfi : fi t.url with
    | none => exact ht
    | some issue => exact storeFind_storeSet_self _ _ _

theorem updateOne_find_ne (fi : String → Option Issue) (st : Store) (tid tid' : String)
    (h : tid' ≠ tid) : storeFind (updateOne fi st tid') tid = storeFind st tid := by
  unfold updateOne
  cases hf : storeFind st tid' with
  | none => rfl
  | some t =>
    dsimp only
    by_cases hu : t.url = ""
    · simp [hu]
    · rw [if_neg hu]
      cases hfi : fi t.url with
      | none => rfl
      | some issue => exact storeFind_storeSet_ne _ _ _ _ (Ne.symm h)

theorem updateDetails_find_not_mem (fi : String → Option Issue) (l : List String)
    (st : Store) (tid : String) (h : tid ∉ l) :
    storeFind (updateDetails fi st l) tid = storeFind st tid := by
  induction l generalizing st with
  | nil => rfl
  | cons a as ih =>
    have ha : tid ≠ a := fun hh => h (by simp [hh])
    have has : tid ∉ as := fun hh => h (by simp [hh])
    calc storeFind (updateDetails fi st (a :: as)) tid
        = storeFind (updateDetails fi (updateOne fi st a) as) tid := rfl
      _ = storeFind (updateOne fi st a) tid := ih (updateOne fi st a) has
      _ = storeFind st tid := updateOne_find_ne fi st tid a (Ne.symm ha)

theorem updateDetails_find (fi : String → Option Issue) (l : List String)
    (st : Store) (tid : String) (t : Ticket) (hnd : l.Nodup) (hmem : tid ∈ l)
    (ht : storeFind st tid = some t) :
    storeFind (updateDetails fi st l) tid = some (enrichOne fi t) := by
  induction l generalizing st with
  | nil => cases hmem
  | cons a as ih =>
    rcases List.mem_cons.mp hmem with h | h
    · subst h
      have hnotin : tid ∉ as := (List.nodup_cons.mp hnd).1
      calc storeFind (updateDetails fi st (tid :: as)) tid
          = storeFind (updateDetails fi (updateOne fi st tid) as) tid := rfl
        _ = storeFind (updateOne fi st tid) tid :=
            updateDetails_find_not_mem fi as (updateOne fi st tid) tid hnotin
        _ = some (enrichOne fi t) := updateOne_find_self fi st tid t ht
    · have hne : tid ≠ a := fun hh => (List.nodup_cons.mp hnd).1 (hh ▸ h)
      exact ih (updateOne fi st a) (List.nodup_cons.mp hnd).2 h
        ((updateOne_find_ne fi st tid a (Ne.symm hne)).trans ht)

theorem applyDetails_fields (t : Ticket) (d : IssueDetails) :
    (applyDetails t d).due_date = (if d.due_date ≠ "" then d.due_date else t.due_date) ∧
    (applyDetails t d).description = d.description.getD t.description ∧
    (applyDetails t d).custom_fields =
      (match d.custom_fields with
       | some cf => some cf
       | none => t.custom_fields) := by
  obtain ⟨dd, ddesc, dcf⟩ := d
  cases ddesc <;> cases dcf <;> by_cases hdd : dd = "" <;>
    refine ⟨?_, ?_, ?_⟩ <;>
    simp only [applyDetails, hdd, ne_eq, not_true_eq_false, not_false_eq_true,
      if_true, if_false, ite_true, ite_false, Option.getD] <;>
    split <;> rfl

/-- C3: the per-issue detail enrichment of a sync cycle, proved against a
spec-modelled `fetch_issue_details` (the function is imported by
`main_window.py` but missing from the sources).  For every duplicate-free
target list (as produced by the merge phase for new/updated tickets) and
every targeted stored ticket: with a non-empty url and a successful fetch,
the stored ticket's `due_date` is set from the issue's `due_date` field,
else from the custom field named `期日` (kept unchanged when both are
empty), and its `description` and `custom_fields` are set from the detail
payload; a ticket without a url, or whose detail fetch raises, is left
unchanged. -/
theorem update_details_enriches (fi : String → Option Issue) (st : Store)
    (targets : List String) (tid : String) (t : Ticket)
    (hnd : targets.Nodup) (hmem : tid ∈ targets) (ht : storeFind st tid = some t) :
    (t.url = "" → storeFind (updateDetails fi st targets) tid = some t) ∧
    (fi t.url = none → storeFind (updateDetails fi st targets) tid = some t) ∧
    (∀ issue, t.url ≠ "" → fi t.url = some issue →
      ∃ t', storeFind (updateDetails fi st targets) tid = some t' ∧
        t'.due_date =
          (if issue.due_date ≠ "" then issue.due_date
           else if dueFromCustomFields issue.custom_fields ≠ "" then
             dueFromCustomFields issue.custom_fields
           else t.due_date) ∧
        t'.description = issue.description.getD t.description ∧
        t'.custom_fields = some issue.custom_fields) := by
  have hfind := updateDetails_find fi targets st tid t hnd hmem ht
  refine ⟨?_, ?_, ?_⟩
  · intro hu
    rw [hfind]
    simp [enrichOne, hu]
  · intro hfi
    rw [hfind]
    by_cases hu : t.url = "" <;> simp [enrichOne, hu, hfi]
  · intro issue hu hfi
    refine ⟨applyDetails t (fetch_issue_details issue), ?_, ?_, ?_, ?_⟩
    · rw [hfind]
      simp [enrichOne, hu, hfi]
    · have hfld := (applyDetails_fields t (fetch_issue_details issue)).1
      rw [hfld]
      by_cases h1 : issue.due_date = "" <;>
        by_cases h2 : dueFromCustomFields issue.custom_fields = "" <;>
        simp [fetch_issue_details, fetch_issue_due_date, h1, h2]
    · exact (applyDetails_fields t (fetch_issue_details issue)).2.1
    · exact (applyDetails_fields t (fetch_issue_details issue)).2.2

def detailTicketW : Ticket :=
  { ticket_id := "9", subject := "s", status := "Open", updated_on := "u",
    url := "http://r/issues/9", feed_search := "foo" }

def detailIssueW : Issue :=
  { due_date := "", custom_fields := [("期日", "2024-05-05")],
    description := some "has foo inside" }

theorem update_details_enriches_witness :
    ([("9" : String)].Nodup ∧ ("9" : String) ∈ ["9"] ∧
      storeFind [("9", detailTicketW)] "9" = some detailTicketW) ∧
    (∃ t', storeFind (updateDetails (fun _ => some detailIssueW)
        [("9", detailTicketW)] ["9"]) "9" = some t' ∧
      t'.due_date =
        (if detailIssueW.due_date ≠ "" then detailIssueW.due_date
         else if dueFromCustomFields detailIssueW.custom_fields ≠ "" then
           dueFromCustomFields detailIssueW.custom_fields
         else detailTicketW.due_date) ∧
      t'.description = detailIssueW.description.getD detailTicketW.description ∧
      t'.custom_fields = some detailIssueW.custom_fields) :=
  ⟨⟨by decide, by decide, by decide⟩,
    (update_details_enriches (fun _ => some detailIssueW) [("9", detailTicketW)]
      ["9"] "9" detailTicketW (by decide) (by decide) (by decide)).2.2
      detailIssueW (by decide) rfl⟩

/-! ## Proofs about `toggle_done_one` (claim C10) -/

/-- C10: `toggle_done_one` on a stored ticket id flips exactly that
ticket's `done` flag, sets `done_at` to the given timestamp when the ticket
becomes done and to `None` when it becomes not-done, leaves every other
field of that ticket and every other ticket unchanged, and persists the
store; on an absent id it changes nothing (and in particular does not
persist). -/
theorem toggle_done_one_spec (s : AppState) (tid now : String) :
    (∀ t, storeFind s.tickets tid = some t →
      ∃ t', storeFind (toggle_done_one s tid now).tickets tid = some t' ∧
        t'.done = !t.done ∧
        t'.done_at = (if t.done then none else some now) ∧
        t'.ticket_id = t.ticket_id ∧ t'.subject = t.subject ∧ t'.status = t.status ∧
        t'.updated_on = t.updated_on ∧ t'.due_date = t.due_date ∧
        t'.description = t.description ∧ t'.custom_fields = t.custom_fields ∧
        t'.url = t.url ∧ t'.feed_id = t.feed_id ∧ t'.feed_title = t.feed_title ∧
        t'.feed_search = t.feed_search ∧ t'.feed_search_custom = t.feed_search_custom ∧
        t'.search_hit = t.search_hit ∧
        (∀ k, k ≠ tid → storeFind (toggle_done_one s tid now).tickets k =
          storeFind s.tickets k) ∧
        (toggle_done_one s tid now).saved = (toggle_done_one s tid now).tickets ∧
        (toggle_done_one s tid now).sync_running = s.sync_running ∧
        (toggle_done_one s tid now).sync_timer = s.sync_timer ∧
        (toggle_done_one s tid now).next_sync_at = s.next_sync_at) ∧
    (storeFind s.tickets tid = none → toggle_done_one s tid now = s) := by
  constructor
  · intro t ht
    refine ⟨{ t with done := !t.done, done_at := if !t.done then some now else none },
      ?_, rfl, ?_, rfl, rfl, rfl, rfl, rfl, rfl, rfl, rfl, rfl, rfl, rfl, rfl, rfl,
      ?_, ?_, ?_, ?_, ?_⟩
    · unfold toggle_done_one
      rw [ht]
      exact storeFind_storeSet_self _ _ _
    · cases hd : t.done <;> simp [hd]
    · intro k hk
      unfold toggle_done_one
      rw [ht]
      exact storeFind_storeSet_ne _ _ _ _ hk
    · unfold toggle_done_one
      rw [ht]
    · unfold toggle_done_one
      rw [ht]
    · unfold toggle_done_one
      rw [ht]
    · unfold toggle_done_one
      rw [ht]
  · intro ht
    unfold toggle_done_one
    rw [ht]

def toggleStateW : AppState :=
  { tickets := [("7", okTicketW)], saved := [("7", okTicketW)] }

theorem toggle_done_one_spec_witness :
    (storeFind toggleStateW.tickets "7" = some okTicketW) ∧
    (∃ t', storeFind (toggle_done_one toggleStateW "7" "2024-06-06T12:00:00").tickets "7"
        = some t' ∧
      t'.done = !okTicketW.done ∧
      t'.done_at = (if okTicketW.done then none else some "2024-06-06T12:00:00") ∧
      t'.ticket_id = okTicketW.ticket_id ∧ t'.subject = okTicketW.subject ∧
      t'.status = okTicketW.status ∧ t'.updated_on = okTicketW.updated_on ∧
      t'.due_date = okTicketW.due_date ∧ t'.description = okTicketW.description ∧
      t'.custom_fields = okTicketW.custom_fields ∧ t'.url = okTicketW.url ∧
      t'.feed_id = okTicketW.feed_id ∧ t'.feed_title = okTicketW.feed_title ∧
      t'.feed_search = okTicketW.feed_search ∧
      t'.feed_search_custom = okTicketW.feed_search_custom ∧
      t'.search_hit = okTicketW.search_hit ∧
      (∀ k, k ≠ "7" → storeFind (toggle_done_one toggleStateW "7" "2024-06-06T12:00:00").tickets k =
        storeFind toggleStateW.tickets k) ∧
      (toggle_done_one toggleStateW "7" "2024-06-06T12:00:00").saved =
        (toggle_done_one toggleStateW "7" "2024-06-06T12:00:00").tickets ∧
      (toggle_done_one toggleStateW "7" "2024-06-06T12:00:00").sync_running =
        toggleStateW.sync_running ∧
      (toggle_done_one toggleStateW "7" "2024-06-06T12:00:00").sync_timer =
        toggleStateW.sync_timer ∧
      (toggle_done_one toggleStateW "7" "2024-06-06T12:00:00").next_sync_at =
        toggleStateW.next_sync_at) :=
  ⟨by decide,
    (toggle_done_one_spec toggleStateW "7" "2024-06-06T12:00:00").1 okTicketW (by decide)⟩

/-! ## Proofs about `sync_now` scheduling and failure behaviour (claims C5, C6) -/

def runningEmptyW : AppState := { sync_running := true }

/-- Counterexample to C5 as stated: when the feed list is empty (reachable,
since the configuration can be edited and reloaded while the sync runs),
`sync_now` warns and returns before the `try/finally`, so even though the
cycle finishes with `sync_running = true` nothing is rescheduled:
with `refresh_minutes = 30` at time `0` the claim predicts
`next_sync_at = some 1800000`, but the timer and `next_sync_at` stay unset. -/
theorem sync_now_no_schedule_on_empty_feeds :
    runningEmptyW.sync_running = true ∧
    (sync_now runningEmptyW [] 30 0 false (fun _ => Except.ok []) (fun _ => none)).1.sync_timer
      = none ∧
    (sync_now runningEmptyW [] 30 0 false (fun _ => Except.ok []) (fun _ => none)).1.next_sync_at
      = none ∧
    ¬ (sync_now runningEmptyW [] 30 0 false (fun _ => Except.ok []) (fun _ => none)).1.next_sync_at
      = some (0 + max 30 1 * 60 * 1000) ∧
    (sync_now runningEmptyW [] 30 0 false (fun _ => Except.ok []) (fun _ => none)).1.status_label
      = "同期失敗" := by
  refine ⟨rfl, rfl, rfl, by decide, rfl⟩

/-- C5 amended: whenever a sync cycle that found a non-empty feed list
finishes while `sync_running` is true — whether the fetch succeeded or
raised — the `finally` clause starts the single timer with delay exactly
`max(refresh_minutes, 1)` minutes and sets `next_sync_at` to the current
time plus that delay; when `sync_running` is false at the end of a cycle
(and also when the feed list was empty, see the counterexample) nothing is
rescheduled, so a failed sync is retried only at the next timer tick. -/
theorem syncOutcome_sched_fields (s : AppState) (enD : Bool)
    (fi : String → Option Issue) (r : SyncRes) :
    (syncOutcome s enD fi r).1.sync_running = s.sync_running ∧
    (syncOutcome s enD fi r).1.sync_timer = s.sync_timer ∧
    (syncOutcome s enD fi r).1.next_sync_at = s.next_sync_at ∧
    (syncOutcome s enD fi r).1.saved = (if r.err = none then (syncOutcome s enD fi r).1.saved else s.saved) := by
  obtain ⟨st, f, nw, up, tg, err⟩ := r
  cases err with
  | none => exact ⟨rfl, rfl, rfl, rfl⟩
  | some e => cases e <;> exact ⟨rfl, rfl, rfl, rfl⟩

theorem sync_now_sched_fields (s : AppState) (feeds : List Feed) (rm now : Int)
    (enD : Bool) (ff : Feed → Except Exc (List Ticket)) (fi : String → Option Issue)
    (hfeeds : feeds ≠ []) :
    (sync_now s feeds rm now enD ff fi).1.sync_running = s.sync_running ∧
    (sync_now s feeds rm now enD ff fi).1.sync_timer =
      (if s.sync_running then some (max rm 1 * 60 * 1000) else s.sync_timer) ∧
    (sync_now s feeds rm now enD ff fi).1.next_sync_at =
      (if s.sync_running then some (now + max rm 1 * 60 * 1000) else s.next_sync_at) := by
  obtain ⟨h1, h2, h3, -⟩ :=
    syncOutcome_sched_fields s enD fi (syncFeedsGo ff s.tickets 0 0 0 [] feeds)
  unfold sync_now
  rw [if_neg hfeeds]
  dsimp only
  rw [h1]
  by_cases hrun : s.sync_running = true
  · simp [hrun, schedule_sync, h1, h2, h3]
  · have hrun' : s.sync_running = false := by simpa using hrun
    simp [hrun', schedule_sync, h1, h2, h3]

theorem sync_now_schedules (s : AppState) (feeds : List Feed) (rm now : Int)
    (enD : Bool) (ff : Feed → Except Exc (List Ticket)) (fi : String → Option Issue)
    (hfeeds : feeds ≠ []) :
    (s.sync_running = true →
      (sync_now s feeds rm now enD ff fi).1.sync_timer = some (max rm 1 * 60 * 1000) ∧
      (sync_now s feeds rm now enD ff fi).1.next_sync_at
        = some (now + max rm 1 * 60 * 1000)) ∧
    (s.sync_running = false →
      (sync_now s feeds rm now enD ff fi).1.sync_timer = s.sync_timer ∧
      (sync_now s feeds rm now enD ff fi).1.next_sync_at = s.next_sync_at) := by
  obtain ⟨-, h2, h3⟩ := sync_now_sched_fields s feeds rm now enD ff fi hfeeds
  constructor
  · intro hrun
    rw [h2, h3, if_pos hrun, if_pos hrun]
    exact ⟨rfl, rfl⟩
  · intro hrun
    rw [h2, h3, hrun]
    exact ⟨rfl, rfl⟩

def feedW : Feed := { id := "fA", title := "Feed A", url := "http://r/issues.atom" }

def runningW : AppState := { sync_running := true }

theorem sync_now_schedules_witness :
    (([feedW] : List Feed) ≠ [] ∧ runningW.sync_running = true) ∧
    ((sync_now runningW [feedW] 30 0 false (fun _ => Except.ok []) (fun _ => none)).1.sync_timer
        = some (max 30 1 * 60 * 1000) ∧
      (sync_now runningW [feedW] 30 0 false (fun _ => Except.ok []) (fun _ => none)).1.next_sync_at
        = some (0 + max 30 1 * 60 * 1000)) :=
  ⟨⟨by decide, rfl⟩,
    (sync_now_schedules runningW [feedW] 30 0 false (fun _ => Except.ok [])
      (fun _ => none) (by decide)).1 rfl⟩

/-- The status label `sync_now` shows for a raised exception:
`HTTPエラー` for an `HTTPError`, `同期失敗` otherwise. -/
def excStatusLabel : Exc → String
  | Exc.http _ _ => "HTTPエラー"
  | Exc.other _ => "同期失敗"

theorem syncOutcome_err (s : AppState) (enD : Bool) (fi : String → Option Issue)
    (r : SyncRes) (e : Exc) (herr : r.err = some e) :
    (syncOutcome s enD fi r).1.saved = s.saved ∧
    (syncOutcome s enD fi r).1.status_label = excStatusLabel e ∧
    (syncOutcome s enD fi r).2.isSome = true := by
  obtain ⟨st, f, nw, up, tg, err⟩ := r
  cases err with
  | none => simp at herr
  | some e' =>
    have he : e' = e := by simpa using herr
    subst he
    cases e' <;> exact ⟨rfl, rfl, rfl⟩

/-- C6: if fetching or parsing any feed raises, `save_csv` is not reached,
so the persisted file is exactly as before the cycle; the status label
shows `HTTPエラー` for an `HTTPError` and `同期失敗` for any other
exception; an error dialog is shown; and (the model being a total function)
the exception does not propagate out of `sync_now`. -/
theorem sync_now_failure_keeps_file (s : AppState) (feeds : List Feed) (rm now : Int)
    (enD : Bool) (ff : Feed → Except Exc (List Ticket)) (fi : String → Option Issue)
    (e : Exc) (hfeeds : feeds ≠ [])
    (herr : (syncFeedsGo ff s.tickets 0 0 0 [] feeds).err = some e) :
    (sync_now s feeds rm now enD ff fi).1.saved = s.saved ∧
    (sync_now s feeds rm now enD ff fi).1.status_label = excStatusLabel e ∧
    (sync_now s feeds rm now enD ff fi).2.isSome = true := by
  obtain ⟨hs, hl, hd⟩ :=
    syncOutcome_err s enD fi (syncFeedsGo ff s.tickets 0 0 0 [] feeds) e herr
  obtain ⟨h1, -, -, -⟩ :=
    syncOutcome_sched_fields s enD fi (syncFeedsGo ff s.tickets 0 0 0 [] feeds)
  unfold sync_now
  rw [if_neg hfeeds]
  dsimp only
  rw [h1]
  by_cases hrun : s.sync_running = true
  · simp [hrun, schedule_sync, hs, hl, hd]
  · have hrun' : s.sync_running = false := by simpa using hrun
    simp [hrun', schedule_sync, hs, hl, hd]

def fileStateW : AppState :=
  { sync_running := true, tickets := [("7", okTicketW)], saved := [("7", okTicketW)] }

def ffHttpW : Feed → Except Exc (List Ticket) := fun _ => Except.error (Exc.http 500 "ISE")

theorem sync_now_failure_keeps_file_witness :
    (([feedW] : List Feed) ≠ [] ∧
      (syncFeedsGo ffHttpW fileStateW.tickets 0 0 0 [] [feedW]).err
        = some (Exc.http 500 "ISE")) ∧
    ((sync_now fileStateW [feedW] 30 0 false ffHttpW (fun _ => none)).1.saved
        = fileStateW.saved ∧
      (sync_now fileStateW [feedW] 30 0 false ffHttpW (fun _ => none)).1.status_label
        = "HTTPエラー" ∧
      (sync_now fileStateW [feedW] 30 0 false ffHttpW (fun _ => none)).2.isSome = true) :=
  ⟨⟨by decide, by decide⟩,
    sync_now_failure_keeps_file fileStateW [feedW] 30 0 false ffHttpW (fun _ => none)
      (Exc.http 500 "ISE") (by decide) (by decide)⟩

/-! ## Proofs about the scheduler transition system (claim C8) -/

/-- The timer/flag invariant: the single sync timer is started only while
`sync_running` is true. -/
def TimerInv (s : AppState) : Prop := s.sync_timer ≠ none → s.sync_running = true

theorem sync_now_sync_running (s : AppState) (feeds : List Feed) (rm now : Int)
    (enD : Bool) (ff : Feed → Except Exc (List Ticket)) (fi : String → Option Issue) :
    (sync_now s feeds rm now enD ff fi).1.sync_running = s.sync_running := by
  by_cases hf : feeds = []
  · subst hf; rfl
  · exact (sync_now_sched_fields s feeds rm now enD ff fi hf).1

theorem sync_now_timer_of_not_running (s : AppState) (feeds : List Feed) (rm now : Int)
    (enD : Bool) (ff : Feed → Except Exc (List Ticket)) (fi : String → Option Issue)
    (hrun : s.sync_running = false) :
    (sync_now s feeds rm now enD ff fi).1.sync_timer = s.sync_timer := by
  by_cases hf : feeds = []
  · subst hf; rfl
  · obtain ⟨-, h2, -⟩ := sync_now_sched_fields s feeds rm now enD ff fi hf
    simp [h2, hrun]

theorem toggle_done_one_sched_fields (s : AppState) (tid now : String) :
    (toggle_done_one s tid now).sync_running = s.sync_running ∧
    (toggle_done_one s tid now).sync_timer = s.sync_timer := by
  unfold toggle_done_one
  cases storeFind s.tickets tid <;> exact ⟨rfl, rfl⟩

theorem timerInv_start (s : AppState) (ok : Bool) (now : Int) (hInv : TimerInv s) :
    TimerInv (start_sync s ok now) := by
  by_cases hok : ok = true
  · subst hok
    intro _
    rfl
  · have hok' : ok = false := by simpa using hok
    subst hok'
    simpa [start_sync] using hInv

theorem timerInv_stop (s : AppState) : TimerInv (stop_sync s) := fun h => absurd rfl h

theorem timerInv_toggle (s : AppState) (ok : Bool) (now : Int) (hInv : TimerInv s) :
    TimerInv (toggle_sync s ok now) := by
  unfold toggle_sync
  by_cases hrun : s.sync_running = true
  · rw [if_pos hrun]
    exact timerInv_stop s
  · rw [if_neg hrun]
    exact timerInv_start s ok now hInv

theorem timerInv_sync_now (s : AppState) (feeds : List Feed) (rm now : Int)
    (enD : Bool) (ff : Feed → Except Exc (List Ticket)) (fi : String → Option Issue)
    (hInv : TimerInv s) : TimerInv (sync_now s feeds rm now enD ff fi).1 := by
  intro h
  rw [sync_now_sync_running]
  by_cases hrun : s.sync_running = true
  · exact hrun
  · have hrun' : s.sync_running = false := by simpa using hrun
    rw [sync_now_timer_of_not_running s feeds rm now enD ff fi hrun'] at h
    exact hInv h

theorem timerInv_toggle_done (s : AppState) (tid now : String) (hInv : TimerInv s) :
    TimerInv (toggle_done_one s tid now) := by
  intro h
  obtain ⟨h1, h2⟩ := toggle_done_one_sched_fields s tid now
  rw [h1]
  rw [h2] at h
  exact hInv h

theorem schedStep_preserves_inv {s s' : AppState} (hInv : TimerInv s)
    (hstep : SchedStep s s') : TimerInv s' := by
  cases hstep with
  | start ok now => exact timerInv_start s ok now hInv
  | stop => exact timerInv_stop s
  | toggle ok now => exact timerInv_toggle s ok now hInv
  | manualSync feeds rm now enD ff fi => exact timerInv_sync_now s feeds rm now enD ff fi hInv
  | timerFire feeds rm now enD ff fi hne => exact timerInv_sync_now s feeds rm now enD ff fi hInv
  | toggleDone tid now => exact timerInv_toggle_done s tid now hInv

theorem nonStartStep_stopped {s s' : AppState} (h1 : s.sync_running = false)
    (h2 : s.sync_timer = none) (hstep : NonStartStep s s') :
    s'.sync_running = false ∧ s'.sync_timer = none := by
  cases hstep with
  | stop => exact ⟨rfl, rfl⟩
  | manualSync feeds rm now enD ff fi =>
    exact ⟨(sync_now_sync_running s feeds rm now enD ff fi).trans h1,
      (sync_now_timer_of_not_running s feeds rm now enD ff fi h1).trans h2⟩
  | timerFire feeds rm now enD ff fi hne => exact absurd h2 hne
  | toggleDone tid now =>
    obtain ⟨ha, hb⟩ := toggle_done_one_sched_fields s tid now
    exact ⟨ha.trans h1, hb.trans h2⟩

/-- C8: starting from the stopped initial window state, in every state
reachable by the scheduler operations (`start_sync`, `stop_sync`,
`toggle_sync`, manual `sync_now`, timer expiry, done-toggling) the sync
timer is started only if `sync_running` is true — and since the model has a
single timer slot which `schedule_sync` overwrites (the Qt timer is stopped
before being restarted), at most one sync is pending at any time.
Moreover, after `stop_sync` completes, every state reachable without
invoking `start_sync` (directly or through the toggle) still has the timer
off and `sync_running` false, so no timer expiry can fire a sync until
`start_sync` is invoked again. -/
theorem scheduler_invariant :
    (∀ init s : AppState, init.sync_running = false → init.sync_timer = none →
      SchedReachable init s → s.sync_timer ≠ none → s.sync_running = true) ∧
    (∀ s0 s' : AppState, NonStartReachable (stop_sync s0) s' →
      s'.sync_running = false ∧ s'.sync_timer = none) := by
  constructor
  · intro init s h0r h0t hreach
    have hInv : TimerInv s := by
      induction hreach with
      | refl => exact fun h => absurd h0t h
      | tail hsteps hstep ih => exact schedStep_preserves_inv ih hstep
    exact hInv
  · intro s0 s' hreach
    induction hreach with
    | refl => exact ⟨rfl, rfl⟩
    | tail hsteps hstep ih => exact nonStartStep_stopped ih.1 ih.2 hstep

theorem scheduler_invariant_witness :
    (start_sync ({} : AppState) true 0).sync_running = true ∧
    ((stop_sync (start_sync ({} : AppState) true 0)).sync_running = false ∧
      (stop_sync (start_sync ({} : AppState) true 0)).sync_timer = none) :=
  ⟨scheduler_invariant.1 {} (start_sync {} true 0) rfl rfl
      (Relation.ReflTransGen.single (SchedStep.start {} true 0)) (by decide),
    scheduler_invariant.2 (start_sync {} true 0) (stop_sync (start_sync {} true 0))
      Relation.ReflTransGen.refl⟩
